import Mathlib

/-!
Shallow embedding of the resilient Supabase executor and connection prober of
this repository, together with theorems settling the spec claims about them.

Component 1, the resilient operation executor, is the class
RobustSupabaseClient (cache map, CACHE_TTL, executeWithFallback, saveToCache,
getFromCache, clearExpiredCache).

Component 2, the connection configuration prober, is the class
SupabaseConnectionManager in packages/db/src/utils/connection-fallback.ts
(getWorkingClient, testConnection, recordAttempt, getConnectionStats).

Machine conventions: timestamps and durations are natural numbers of
milliseconds; a JavaScript value is modelled by JSValue up to truthiness;
a thrown error is modelled by its message.
-/

/-- A JavaScript runtime value, modelled as far as truthiness, storage and
equality are concerned.  An object or array is represented opaquely by an
identifier and is always truthy. -/
inductive JSValue where
  | vnull
  | vundef
  | vbool (b : Bool)
  | vnum (n : Int)
  | vstr (s : String)
  | vobj (id : Nat)
  deriving DecidableEq, Repr

/-- JavaScript truthiness of a value (null, undefined, false, 0 and the empty
string are falsy; objects are truthy). -/
def truthy : JSValue → Bool
  | .vnull => false
  | .vundef => false
  | .vbool b => b
  | .vnum n => n != 0
  | .vstr s => s != ""
  | .vobj _ => true

/-- A thrown JavaScript error, identified by its message. -/
structure JSError where
  message : String
  deriving DecidableEq, Repr

/-- One entry of the executor's cache map: the stored data together with the
Date.now() timestamp recorded by saveToCache. -/
structure CacheEntry where
  data : JSValue
  timestamp : Nat
  deriving DecidableEq, Repr

/-- The executor's private cache, a JavaScript Map from string keys to entries,
modelled by its lookup function (Map keys are unique). -/
abbrev Cache := String → Option CacheEntry

/-- The cache of a freshly constructed RobustSupabaseClient: empty. -/
def emptyCache : Cache := fun _ => none

/-- The constant CACHE_TTL = 5 * 60 * 1000 of RobustSupabaseClient. -/
def CACHE_TTL : Nat := 5 * 60 * 1000

/-- Map.set: store an entry under a key, overwriting any previous entry. -/
def mapSet (c : Cache) (k : String) (e : CacheEntry) : Cache :=
  fun k2 => if k2 = k then some e else c k2

/-- saveToCache(key, data): stores the data with the current timestamp. -/
def saveToCache (c : Cache) (key : String) (data : JSValue) (now : Nat) : Cache :=
  mapSet c key ⟨data, now⟩

/-- getFromCache(key, ignoreTTL): returns the stored data, or none when the key
is absent or the entry is expired (age strictly above CACHE_TTL) while
ignoreTTL is false.  The subtraction now - timestamp is the JavaScript
Date.now() difference; entries from the future are not expired, matching the
sign of the JavaScript comparison. -/
def getFromCache (c : Cache) (key : String) (ignoreTTL : Bool) (now : Nat) :
    Option JSValue :=
  match c key with
  | none => none
  | some cached =>
    let isExpired : Bool := decide (now - cached.timestamp > CACHE_TTL)
    if isExpired && !ignoreTTL then none else some cached.data

/-- clearExpiredCache(): deletes every entry whose age exceeds CACHE_TTL.  The
JavaScript loop iterates the Map and deletes exactly the expired keys, which on
the lookup function acts pointwise. -/
def clearExpiredCache (c : Cache) (now : Nat) : Cache :=
  fun k =>
    match c k with
    | none => none
    | some e => if now - e.timestamp > CACHE_TTL then none else some e

instance : DecidableEq (Except JSError JSValue) := fun x y =>
  match x, y with
  | .ok a, .ok b =>
    if h : a = b then isTrue (by rw [h]) else isFalse (by simp [h])
  | .ok _, .error _ => isFalse (by simp)
  | .error _, .ok _ => isFalse (by simp)
  | .error a, .error b =>
    if h : a = b then isTrue (by rw [h]) else isFalse (by simp [h])

/-- The behaviour of one asynchronous operation passed to the executor: the
number of milliseconds until its promise settles, and how it settles. -/
structure Op where
  settleTime : Nat
  outcome : Except JSError JSValue
  deriving DecidableEq, Repr

/-- The field access this.timeout inside executeWithFallback.  The class
RobustSupabaseClient declares no field named timeout (its only fields are
client, cache and CACHE_TTL), so the access yields undefined, modelled none. -/
def timeoutField : Option Nat := none

/-- The delay actually handed to setTimeout in the race: setTimeout treats an
undefined delay as 0 milliseconds. -/
def timerDelay : Nat := timeoutField.getD 0

/-- Promise.race([operation(), timeoutPromise]): the operation wins when it
settles no later than the timer fires (an already settled promise wins over a
0ms timer, which only fires on a later macrotask); otherwise the race rejects
with the distinct timeout error built in executeWithFallback. -/
def race (op : Op) (delay : Nat) : Except JSError JSValue :=
  if op.settleTime ≤ delay then op.outcome
  else Except.error ⟨"Operation timeout"⟩

/-- JavaScript truthiness of the optional cacheKey argument: it must be present
and a non-empty string for useCache && cacheKey to hold. -/
def jsKeyGiven : Option String → Bool
  | none => false
  | some s => s != ""

/-- The observable outcome of one executeWithFallback call: the settled result,
the cache after the call, and whether the supplied operation was invoked. -/
structure ExecResult where
  result : Except JSError JSValue
  cache : Cache
  invoked : Bool

/-- The try/catch body of executeWithFallback after the cache short-circuit:
run the race; on success store a truthy result when caching is on; on failure
fall back to a cached value ignoring the TTL (the if (cached) truthiness test
included) and otherwise rethrow the original error. -/
def runOperationPhase (c : Cache) (now : Nat) (op : Op) (key : Option String)
    (useCache : Bool) : ExecResult :=
  let cacheOn := useCache && jsKeyGiven key
  let k := key.getD ""
  match race op timerDelay with
  | .ok result =>
    ⟨.ok result,
     if cacheOn && truthy result then saveToCache c k result now else c,
     true⟩
  | .error e =>
    if cacheOn then
      match getFromCache c k true now with
      | some v => if truthy v then ⟨.ok v, c, true⟩ else ⟨.error e, c, true⟩
      | none => ⟨.error e, c, true⟩
    else ⟨.error e, c, true⟩

/-- executeWithFallback(operation, cacheKey?, useCache = true): first the cache
short-circuit (fresh lookup plus the if (cached) truthiness test), then the
try/catch body runOperationPhase. -/
def executeWithFallback (c : Cache) (now : Nat) (op : Op) (key : Option String)
    (useCache : Bool) : ExecResult :=
  if useCache && jsKeyGiven key then
    match getFromCache c (key.getD "") false now with
    | some v =>
      if truthy v then ⟨.ok v, c, false⟩
      else runOperationPhase c now op key useCache
    | none => runOperationPhase c now op key useCache
  else runOperationPhase c now op key useCache

/-- Invariant of every cache reachable through the executor: entries are only
written by executeWithFallback, under a truthy (non-empty) key and only for a
truthy result. -/
def cacheWF (c : Cache) : Prop :=
  ∀ k e, c k = some e → truthy e.data = true ∧ k ≠ ""

/-- Boolean test that one character list starts with another. -/
def startsWithL : List Char → List Char → Bool
  | _, [] => true
  | [], _ :: _ => false
  | a :: as, b :: bs => a == b && startsWithL as bs

/-- Boolean substring test on character lists. -/
def containsSub : List Char → List Char → Bool
  | l, sub =>
    if startsWithL l sub then true
    else
      match l with
      | [] => false
      | _ :: rest => containsSub rest sub

/-- JavaScript String.prototype.includes. -/
def jsIncludes (s sub : String) : Bool := containsSub s.data sub.data

/-- The four candidate client configurations of getWorkingClient, in the fixed
order of the configurations array. -/
inductive Config where
  | fastTimeout
  | mediumKeepAlive
  | longBasic
  | defaultCfg
  deriving DecidableEq, Repr

/-- The fixed ordered candidate list built at the top of getWorkingClient. -/
def configurations : List Config :=
  [.fastTimeout, .mediumKeepAlive, .longBasic, .defaultCfg]

/-- One record of the prober's connectionHistory. -/
structure ConnectionAttempt where
  success : Bool
  latency : Nat
  error : Option String
  deriving DecidableEq, Repr

/-- recordAttempt(success, latency, error?): push the record, then shift the
oldest one off when the history holds more than 10 records. -/
def recordAttempt (hist : List ConnectionAttempt) (success : Bool)
    (latency : Nat) (error : Option String) : List ConnectionAttempt :=
  let h := hist ++ [⟨success, latency, error⟩]
  if h.length > 10 then h.drop 1 else h

/-- How the probe request client.auth.admin.listUsers({page 1, perPage 1})
settles: either the call itself rejects, or it resolves to a response whose
error field may be null, after the given number of milliseconds. -/
inductive ProbeResponse where
  | throws (e : JSError)
  | respond (error : Option JSError) (latency : Nat)
  deriving DecidableEq, Repr

/-- testConnection(client): run the probe request; a rejection propagates; a
response error whose message does not include the string No users is thrown;
otherwise (no error, or a No users error denoting an empty result) the attempt
is recorded as successful with its latency and the probe succeeds. -/
def testConnection (hist : List ConnectionAttempt) (r : ProbeResponse) :
    Except JSError (List ConnectionAttempt) :=
  match r with
  | .throws e => .error e
  | .respond err latency =>
    match err with
    | some e =>
      if !(jsIncludes e.message "No users") then .error e
      else .ok (recordAttempt hist true latency none)
    | none => .ok (recordAttempt hist true latency none)

/-- Whether a probe response makes testConnection succeed. -/
def probeOk : ProbeResponse → Bool
  | .throws _ => false
  | .respond none _ => true
  | .respond (some e) _ => jsIncludes e.message "No users"

/-- The error testConnection throws for a failing probe response. -/
def probeErr : ProbeResponse → JSError
  | .throws e => e
  | .respond (some e) _ => e
  | .respond none _ => ⟨""⟩

/-- The latency testConnection records for a succeeding probe response. -/
def probeLatency : ProbeResponse → Nat
  | .throws _ => 0
  | .respond _ l => l

/-- The mutable state of a SupabaseConnectionManager instance. -/
structure ManagerState where
  connectionHistory : List ConnectionAttempt
  lastSuccessfulConfig : Option Config

/-- The observable outcome of one getWorkingClient call: the returned client
(identified by the configuration it was built from) or the terminal error, the
manager state after the call, and the configurations probed, in order. -/
structure GWCResult where
  result : Except JSError Config
  state : ManagerState
  probed : List Config

/-- The terminal error message thrown when every configuration failed. -/
def exhaustedMessage : String := "❌ Todas as configurações de conexão falharam"

/-- The for loop of getWorkingClient over the remaining candidate
configurations: probe each in order; on the first success remember the
configuration and return its client (testConnection already recorded the
successful attempt); on failure record a failed attempt with latency 0 and the
error message, then move to the next candidate; when the list is exhausted
throw the terminal error. -/
def tryLoop (probeOf : Config → ProbeResponse) :
    List Config → ManagerState → List Config → GWCResult
  | [], st, acc => ⟨.error ⟨exhaustedMessage⟩, st, acc⟩
  | cfg :: rest, st, acc =>
    match testConnection st.connectionHistory (probeOf cfg) with
    | .ok h => ⟨.ok cfg, ⟨h, some cfg⟩, acc ++ [cfg]⟩
    | .error e =>
      tryLoop probeOf rest
        ⟨recordAttempt st.connectionHistory false 0 (some e.message),
         st.lastSuccessfulConfig⟩
        (acc ++ [cfg])

/-- getWorkingClient(url, serviceKey): when a last successful configuration is
remembered, probe a client built from it first and return it on success; on
its failure (which records nothing) fall through, state unchanged, to the
candidate loop over the fixed configurations list.  The probeOf argument gives
the environment's response to probing each configuration. -/
def getWorkingClient (st : ManagerState) (probeOf : Config → ProbeResponse) :
    GWCResult :=
  match st.lastSuccessfulConfig with
  | some cfg =>
    match testConnection st.connectionHistory (probeOf cfg) with
    | .ok h => ⟨.ok cfg, ⟨h, some cfg⟩, [cfg]⟩
    | .error _ => tryLoop probeOf configurations st [cfg]
  | none => tryLoop probeOf configurations st []

/-- The statistics object returned by getConnectionStats. -/
structure ConnectionStats where
  total : Nat
  successful : Nat
  successRate : ℚ
  averageLatency : ℤ

/-- getConnectionStats(): totals over the capped history.  The JavaScript
expression sum / successful || 0 yields 0 when successful is 0 (NaN coerced by
the or), which rational division by zero models exactly; Math.round rounds
half up, as round does on the nonnegative rationals occurring here. -/
def getConnectionStats (hist : List ConnectionAttempt) : ConnectionStats :=
  let successList := hist.filter (fun a => a.success)
  ⟨hist.length,
   successList.length,
   if hist.length > 0 then
     ((successList.length : ℚ) / (hist.length : ℚ)) * 100
   else 0,
   round (((successList.map (fun a => a.latency)).sum : ℚ) /
     (successList.length : ℚ))⟩

/-- Claim C1 (code bug evidence).  The claim says executeWithFallback races the
operation against a fixed per-instance timeout that is a configuration
constant of the executor instance.  In the source the racing timer is built
with setTimeout(..., this.timeout), but RobustSupabaseClient declares no field
named timeout, so the delay is undefined, which setTimeout treats as 0 ms:
an operation that would settle successfully after 5000 ms is rejected with the
timeout error on a fresh instance. -/
theorem C1_no_timeout_field_so_timer_races_at_zero :
    timeoutField = none ∧
    (executeWithFallback emptyCache 0 ⟨5000, Except.ok (JSValue.vnum 1)⟩
      none false).result = Except.error ⟨"Operation timeout"⟩ :=
  ⟨rfl, rfl⟩

/-- Claim C5.  The eviction sweep removes exactly the entries whose age
exceeds CACHE_TTL: every entry within the TTL is unchanged, every entry older
than the TTL is removed, no key gains an entry, and running the sweep twice at
the same time equals running it once. -/
theorem C5_clear_expired_exact_and_idempotent (c : Cache) (now : Nat) :
    (∀ k e, c k = some e → now - e.timestamp ≤ CACHE_TTL →
      clearExpiredCache c now k = some e) ∧
    (∀ k e, c k = some e → now - e.timestamp > CACHE_TTL →
      clearExpiredCache c now k = none) ∧
    (∀ k, c k = none → clearExpiredCache c now k = none) ∧
    clearExpiredCache (clearExpiredCache c now) now = clearExpiredCache c now := by
  refine ⟨?_, ?_, ?_, ?_⟩
  · intro k e h hle
    simp [clearExpiredCache, h, Nat.not_lt.mpr hle]
  · intro k e h hgt
    simp [clearExpiredCache, h, hgt]
  · intro k h
    simp [clearExpiredCache, h]
  · funext k
    simp only [clearExpiredCache]
    cases hc : c k with
    | none => simp
    | some e =>
      by_cases hexp : now - e.timestamp > CACHE_TTL
      · simp [hexp]
      · simp [hexp]

/-- A concrete cache for exercising the eviction sweep: an entry aged 400000 ms
under key a and an entry from the future (age truncates to 0) under key b. -/
def sweepCache : Cache := fun k =>
  if k = "a" then some ⟨.vnum 1, 0⟩
  else if k = "b" then some ⟨.vnum 2, 500000⟩
  else none

/-- Witness for C5 at a concrete cache and time. -/
theorem C5_witness :
    clearExpiredCache sweepCache 400000 "a" = none ∧
    clearExpiredCache sweepCache 400000 "b" = some ⟨.vnum 2, 500000⟩ ∧
    clearExpiredCache sweepCache 400000 "zz" = none := by
  obtain ⟨hfresh, hold, hnone, _⟩ := C5_clear_expired_exact_and_idempotent sweepCache 400000
  exact ⟨hold "a" ⟨.vnum 1, 0⟩ (by decide) (by decide),
         hfresh "b" ⟨.vnum 2, 500000⟩ (by decide) (by decide),
         hnone "zz" (by decide)⟩

/-- Claim C8.  getConnectionStats never divides by zero: on an empty history
the success rate is 0, with no successful attempt the average latency is 0,
and otherwise the rate is the percentage of successful attempts and the
average latency averages the latencies of the successful attempts only. -/
theorem C8_stats_no_division_fault (hist : List ConnectionAttempt) :
    (getConnectionStats hist).total = hist.length ∧
    (getConnectionStats hist).successful
      = (hist.filter fun a => a.success).length ∧
    (getConnectionStats hist).successRate
      = (if hist.length = 0 then 0
         else ((hist.filter fun a => a.success).length : ℚ)
           / (hist.length : ℚ) * 100) ∧
    (getConnectionStats hist).averageLatency
      = (if (hist.filter fun a => a.success).length = 0 then 0
         else round
           ((((hist.filter fun a => a.success).map fun a => a.latency).sum : ℚ)
             / ((hist.filter fun a => a.success).length : ℚ))) := by
  refine ⟨rfl, rfl, ?_, ?_⟩
  · by_cases h : hist.length = 0
    · simp [getConnectionStats, h]
    · simp [getConnectionStats, h, Nat.pos_of_ne_zero h]
  · by_cases h : (hist.filter fun a => a.success).length = 0
    · have hnil : hist.filter (fun a => a.success) = [] := List.length_eq_zero.mp h
      simp [getConnectionStats, h, hnil]
    · simp [getConnectionStats, h]

/-- Claim C9.  In testConnection a response error whose message includes the
remote empty-result marker No users is treated as probe success and the
attempt is recorded as successful; a response without error likewise; any
other response error fails the probe by throwing exactly that error. -/
theorem C9_probe_empty_result_is_success (hist : List ConnectionAttempt)
    (lat : Nat) (e : JSError) :
    (testConnection hist (.respond none lat)
      = .ok (recordAttempt hist true lat none)) ∧
    (jsIncludes e.message "No users" = true →
      testConnection hist (.respond (some e) lat)
        = .ok (recordAttempt hist true lat none)) ∧
    (jsIncludes e.message "No users" = false →
      testConnection hist (.respond (some e) lat) = .error e) := by
  refine ⟨rfl, ?_, ?_⟩
  · intro h
    simp [testConnection, h]
  · intro h
    simp [testConnection, h]

/-- Witness for C9 at concrete error messages. -/
theorem C9_witness :
    testConnection [] (.respond (some ⟨"No users found"⟩) 7)
      = .ok [⟨true, 7, none⟩] ∧
    testConnection [] (.respond (some ⟨"fetch failed"⟩) 7)
      = .error ⟨"fetch failed"⟩ := by
  have h1 := (C9_probe_empty_result_is_success [] 7 ⟨"No users found"⟩).2.1 (by decide)
  have h2 := (C9_probe_empty_result_is_success [] 7 ⟨"fetch failed"⟩).2.2 (by decide)
  rw [h1, h2]
  exact ⟨rfl, rfl⟩

lemma jsKeyGiven_some {k : String} (hk : k ≠ "") : jsKeyGiven (some k) = true := by
  simp [jsKeyGiven, hk]

lemma getFromCache_none {c : Cache} {k : String} {b : Bool} {now : Nat}
    (hc : c k = none) : getFromCache c k b now = none := by
  simp [getFromCache, hc]

lemma getFromCache_fresh {c : Cache} {k : String} {e : CacheEntry} {now : Nat}
    (hc : c k = some e) (ht : now - e.timestamp ≤ CACHE_TTL) :
    getFromCache c k false now = some e.data := by
  simp [getFromCache, hc, Nat.not_lt.mpr ht]

lemma getFromCache_expired {c : Cache} {k : String} {e : CacheEntry} {now : Nat}
    (hc : c k = some e) (ht : now - e.timestamp > CACHE_TTL) :
    getFromCache c k false now = none := by
  simp [getFromCache, hc, ht]

lemma getFromCache_ignore {c : Cache} {k : String} {e : CacheEntry} {now : Nat}
    (hc : c k = some e) : getFromCache c k true now = some e.data := by
  simp [getFromCache, hc]

/-- A fresh truthy cache entry short-circuits the call: the stored value is
returned, the cache is untouched, and the operation is never invoked. -/
lemma exec_fresh_hit {c : Cache} {k : String} (hk : k ≠ "") {e : CacheEntry}
    (hc : c k = some e) (hd : truthy e.data = true) {t2 : Nat}
    (ht : t2 - e.timestamp ≤ CACHE_TTL) (op2 : Op) :
    executeWithFallback c t2 op2 (some k) true = ⟨.ok e.data, c, false⟩ := by
  simp [executeWithFallback, jsKeyGiven_some hk, getFromCache_fresh hc ht, hd]

/-- Operation phase, success case, truthy result: the result is stored. -/
lemma runOp_ok_truthy {c : Cache} {k : String} (hk : k ≠ "") {now : Nat}
    {op : Op} {v : JSValue} (hr : race op timerDelay = Except.ok v)
    (hv : truthy v = true) :
    runOperationPhase c now op (some k) true = ⟨.ok v, saveToCache c k v now, true⟩ := by
  simp [runOperationPhase, hr, jsKeyGiven_some hk, hv]

/-- Operation phase, success case, falsy result: nothing is stored. -/
lemma runOp_ok_falsy {c : Cache} {now : Nat} {key : Option String} {u : Bool}
    {op : Op} {v : JSValue} (hr : race op timerDelay = Except.ok v)
    (hv : truthy v = false) :
    runOperationPhase c now op key u = ⟨.ok v, c, true⟩ := by
  simp [runOperationPhase, hr, hv]

/-- Operation phase, failure with a truthy cached entry: stale fallback. -/
lemma runOp_err_hit {c : Cache} {k : String} (hk : k ≠ "") {now : Nat}
    {op : Op} {e0 : JSError} {entry : CacheEntry}
    (hr : race op timerDelay = Except.error e0) (hc : c k = some entry)
    (hte : truthy entry.data = true) :
    runOperationPhase c now op (some k) true = ⟨.ok entry.data, c, true⟩ := by
  simp [runOperationPhase, hr, jsKeyGiven_some hk, getFromCache_ignore hc, hte]

/-- Operation phase, failure with a falsy cached entry: the error propagates. -/
lemma runOp_err_hit_falsy {c : Cache} {k : String} (hk : k ≠ "") {now : Nat}
    {op : Op} {e0 : JSError} {entry : CacheEntry}
    (hr : race op timerDelay = Except.error e0) (hc : c k = some entry)
    (hte : truthy entry.data = false) :
    runOperationPhase c now op (some k) true = ⟨.error e0, c, true⟩ := by
  simp [runOperationPhase, hr, jsKeyGiven_some hk, getFromCache_ignore hc, hte]

/-- Operation phase, failure with no cached entry: the error propagates. -/
lemma runOp_err_miss {c : Cache} {k : String} {now : Nat}
    {op : Op} {e0 : JSError}
    (hr : race op timerDelay = Except.error e0) (hc : c k = none) :
    runOperationPhase c now op (some k) true = ⟨.error e0, c, true⟩ := by
  rcases hkg : jsKeyGiven (some k) with _ | _
  · simp [runOperationPhase, hr, hkg]
  · simp [runOperationPhase, hr, hkg, getFromCache_none hc]

/-- Operation phase with caching off (useCache false or no truthy key),
success case. -/
lemma runOp_nocache_ok {c : Cache} {now : Nat} {key : Option String} {u : Bool}
    {op : Op} {v : JSValue} (hkg : (u && jsKeyGiven key) = false)
    (hr : race op timerDelay = Except.ok v) :
    runOperationPhase c now op key u = ⟨.ok v, c, true⟩ := by
  simp [runOperationPhase, hr, hkg]

/-- Operation phase with caching off, failure case. -/
lemma runOp_nocache_err {c : Cache} {now : Nat} {key : Option String} {u : Bool}
    {op : Op} {e0 : JSError} (hkg : (u && jsKeyGiven key) = false)
    (hr : race op timerDelay = Except.error e0) :
    runOperationPhase c now op key u = ⟨.error e0, c, true⟩ := by
  simp [runOperationPhase, hr, hkg]

/-- After the operation phase settled with a truthy key and value v, the cache
holds an entry for the key whose data is v. -/
lemma runOp_ok_entry {c : Cache} {k : String} (hk : k ≠ "") {t1 : Nat}
    {op1 : Op} {v : JSValue} (hv : truthy v = true)
    (h1 : (runOperationPhase c t1 op1 (some k) true).result = Except.ok v) :
    ∃ e : CacheEntry,
      (runOperationPhase c t1 op1 (some k) true).cache k = some e ∧
      e.data = v := by
  rcases hr : race op1 timerDelay with e0 | v1
  · rcases hc : c k with _ | entry
    · rw [runOp_err_miss hr hc] at h1
      simp at h1
    · by_cases hte : truthy entry.data = true
      · rw [runOp_err_hit hk hr hc hte] at h1 ⊢
        exact ⟨entry, hc, by injection h1⟩
      · rw [runOp_err_hit_falsy hk hr hc (by simpa using hte)] at h1
        simp at h1
  · have hv1 : v1 = v := by
      by_cases htv : truthy v1 = true
      · rw [runOp_ok_truthy hk hr htv] at h1
        injection h1
      · rw [runOp_ok_falsy hr (by simpa using htv)] at h1
        injection h1
    subst hv1
    rw [runOp_ok_truthy hk hr hv]
    exact ⟨⟨v1, t1⟩, by simp [saveToCache, mapSet], rfl⟩

lemma getFromCache_some_inv {c : Cache} {k : String} {b : Bool} {t : Nat}
    {v0 : JSValue} (hg : getFromCache c k b t = some v0) :
    ∃ entry, c k = some entry ∧ entry.data = v0 := by
  rcases hc : c k with _ | entry
  · rw [getFromCache_none hc] at hg
    cases hg
  · refine ⟨entry, rfl, ?_⟩
    simp only [getFromCache, hc] at hg
    split at hg
    · cases hg
    · injection hg

lemma exec_eq_hit {c : Cache} {k : String} {t : Nat} {op : Op} {v0 : JSValue}
    (hk : k ≠ "") (hg : getFromCache c k false t = some v0)
    (htv : truthy v0 = true) :
    executeWithFallback c t op (some k) true = ⟨.ok v0, c, false⟩ := by
  simp [executeWithFallback, jsKeyGiven_some hk, hg, htv]

lemma exec_eq_runOp_hit_falsy {c : Cache} {k : String} {t : Nat} {op : Op}
    {v0 : JSValue} (hk : k ≠ "") (hg : getFromCache c k false t = some v0)
    (htv : truthy v0 = false) :
    executeWithFallback c t op (some k) true = runOperationPhase c t op (some k) true := by
  simp [executeWithFallback, jsKeyGiven_some hk, hg, htv]

lemma exec_eq_runOp_miss {c : Cache} {k : String} {t : Nat} {op : Op}
    (hk : k ≠ "") (hg : getFromCache c k false t = none) :
    executeWithFallback c t op (some k) true = runOperationPhase c t op (some k) true := by
  simp [executeWithFallback, jsKeyGiven_some hk, hg]

lemma exec_eq_runOp_nokey {c : Cache} {t : Nat} {op : Op} {key : Option String}
    {u : Bool} (hkg : (u && jsKeyGiven key) = false) :
    executeWithFallback c t op key u = runOperationPhase c t op key u := by
  simp [executeWithFallback, hkg]

/-- After any call that settled with result ok v for a truthy key and truthy v,
the cache holds an entry for the key whose data is v. -/
lemma exec_ok_entry {c : Cache} {k : String} (hk : k ≠ "") {t1 : Nat}
    {op1 : Op} {v : JSValue} (hv : truthy v = true)
    (h1 : (executeWithFallback c t1 op1 (some k) true).result = Except.ok v) :
    ∃ e : CacheEntry,
      (executeWithFallback c t1 op1 (some k) true).cache k = some e ∧
      e.data = v := by
  rcases hg : getFromCache c k false t1 with _ | v0
  · rw [exec_eq_runOp_miss hk hg] at h1 ⊢
    exact runOp_ok_entry hk hv h1
  · by_cases htv : truthy v0 = true
    · rw [exec_eq_hit hk hg htv] at h1 ⊢
      obtain ⟨entry, hc, hd⟩ := getFromCache_some_inv hg
      have hveq : v0 = v := by
        simpa using h1
      exact ⟨entry, hc, by rw [hd, hveq]⟩
    · rw [exec_eq_runOp_hit_falsy hk hg (by simpa using htv)] at h1 ⊢
      exact runOp_ok_entry hk hv h1

/-- Claim C2.  After a successful call with cache enabled and truthy key k that
produced the truthy value v, the cache holds an entry for k with data v, and
any subsequent call with the same key made while that entry's age is at most
CACHE_TTL returns v immediately without invoking the supplied operation. -/
theorem C2_fresh_cache_short_circuits (c : Cache) (k : String) (hk : k ≠ "")
    (v : JSValue) (hv : truthy v = true) (t1 : Nat) (op1 : Op)
    (h1 : (executeWithFallback c t1 op1 (some k) true).result = Except.ok v) :
    ∃ e : CacheEntry,
      (executeWithFallback c t1 op1 (some k) true).cache k = some e ∧
      e.data = v ∧
      ∀ (t2 : Nat) (op2 : Op), t2 - e.timestamp ≤ CACHE_TTL →
        (executeWithFallback ((executeWithFallback c t1 op1 (some k) true).cache)
          t2 op2 (some k) true).result = Except.ok v ∧
        (executeWithFallback ((executeWithFallback c t1 op1 (some k) true).cache)
          t2 op2 (some k) true).invoked = false := by
  obtain ⟨e, he, hd⟩ := exec_ok_entry hk hv h1
  refine ⟨e, he, hd, ?_⟩
  intro t2 op2 ht
  rw [exec_fresh_hit hk he (by rw [hd]; exact hv) ht op2]
  exact ⟨by rw [hd], rfl⟩

/-- Witness for C2: a first call at time 0 stores 42 under key k; a second call
at time 1000 with a failing operation returns 42 without invoking it. -/
theorem C2_witness :
    (executeWithFallback
      ((executeWithFallback emptyCache 0 ⟨0, Except.ok (JSValue.vnum 42)⟩
        (some "k") true).cache)
      1000 ⟨0, Except.error ⟨"down"⟩⟩ (some "k") true).result
      = Except.ok (JSValue.vnum 42) ∧
    (executeWithFallback
      ((executeWithFallback emptyCache 0 ⟨0, Except.ok (JSValue.vnum 42)⟩
        (some "k") true).cache)
      1000 ⟨0, Except.error ⟨"down"⟩⟩ (some "k") true).invoked = false := by
  obtain ⟨e, he, hd, hall⟩ := C2_fresh_cache_short_circuits emptyCache "k"
    (by decide) (JSValue.vnum 42) (by decide) 0
    ⟨0, Except.ok (JSValue.vnum 42)⟩ (by decide)
  have hval : (executeWithFallback emptyCache 0 ⟨0, Except.ok (JSValue.vnum 42)⟩
      (some "k") true).cache "k" = some ⟨JSValue.vnum 42, 0⟩ := by decide
  rw [hval] at he
  injection he with he2
  subst he2
  exact hall 1000 ⟨0, Except.error ⟨"down"⟩⟩ (by decide)

/-- Claim C3.  For a call with cache enabled and key k whose operation fails
(rejection or timeout): when any entry for k exists, even one older than the
TTL, the call returns that entry's value and the error is suppressed; when no
entry for k exists the call rejects with exactly the original error.  The
cache is quantified over the executor-reachable caches (cacheWF: entries are
written only under a truthy key and only for a truthy result). -/
theorem C3_stale_fallback_or_original_error (c : Cache) (hwf : cacheWF c)
    (k : String) (now : Nat) (op : Op) (e : JSError)
    (hop : race op timerDelay = Except.error e) :
    (∀ entry : CacheEntry, c k = some entry →
      (executeWithFallback c now op (some k) true).result = Except.ok entry.data) ∧
    (c k = none →
      (executeWithFallback c now op (some k) true).result = Except.error e) := by
  constructor
  · intro entry hc
    obtain ⟨hte, hk⟩ := hwf k entry hc
    by_cases hexp : now - entry.timestamp > CACHE_TTL
    · rw [exec_eq_runOp_miss hk (getFromCache_expired hc hexp),
        runOp_err_hit hk hop hc hte]
    · rw [exec_fresh_hit hk hc hte (Nat.le_of_not_lt hexp) op]
  · intro hc
    by_cases hk : k = ""
    · subst hk
      have hkg : (true && jsKeyGiven (some "")) = false := by
        simp [jsKeyGiven]
      rw [exec_eq_runOp_nokey hkg, runOp_nocache_err hkg hop]
    · rw [exec_eq_runOp_miss hk (getFromCache_none hc), runOp_err_miss hop hc]

/-- A reachable-shape cache holding one entry, stored at time 0, for
exercising the stale fallback far beyond the TTL. -/
def staleCache : Cache := fun k =>
  if k = "user_1" then some ⟨.vobj 5, 0⟩ else none

/-- Witness for C3: at time 999999 (entry age well beyond the 300000 ms TTL) a
timed-out operation still returns the stale value, while under a key with no
entry the same failure propagates the original timeout error. -/
theorem C3_witness :
    (executeWithFallback staleCache 999999 ⟨50, Except.ok (JSValue.vnum 1)⟩
      (some "user_1") true).result = Except.ok (JSValue.vobj 5) ∧
    (executeWithFallback staleCache 999999 ⟨50, Except.ok (JSValue.vnum 1)⟩
      (some "missing") true).result = Except.error ⟨"Operation timeout"⟩ := by
  have hwf : cacheWF staleCache := by
    intro k e h
    by_cases hk : k = "user_1"
    · subst hk
      refine ⟨?_, by decide⟩
      have he : e = ⟨.vobj 5, 0⟩ := by
        simpa [staleCache] using h.symm
      rw [he]
      rfl
    · simp [staleCache, hk] at h
  constructor
  · exact (C3_stale_fallback_or_original_error staleCache hwf "user_1" 999999
      ⟨50, Except.ok (JSValue.vnum 1)⟩ ⟨"Operation timeout"⟩ (by decide)).1
      ⟨JSValue.vobj 5, 0⟩ (by decide)
  · exact (C3_stale_fallback_or_original_error staleCache hwf "missing" 999999
      ⟨50, Except.ok (JSValue.vnum 1)⟩ ⟨"Operation timeout"⟩ (by decide)).2
      (by decide)

/-- Claim C4.  A successful but falsy result is never written to the cache:
the call returns the falsy value, leaves the cache exactly as it was, and a
subsequent call with the same key invokes the operation again instead of
returning a cached value. -/
theorem C4_falsy_results_never_cached (c : Cache) (k : String) (t1 t2 : Nat)
    (op1 op2 : Op) (v : JSValue) (hv : truthy v = false)
    (hop : race op1 timerDelay = Except.ok v) (hc : c k = none) :
    (executeWithFallback c t1 op1 (some k) true).result = Except.ok v ∧
    (executeWithFallback c t1 op1 (some k) true).cache = c ∧
    (executeWithFallback ((executeWithFallback c t1 op1 (some k) true).cache)
      t2 op2 (some k) true).invoked = true := by
  by_cases hk : k = ""
  · subst hk
    have hkg : (true && jsKeyGiven (some "")) = false := by
      simp [jsKeyGiven]
    rw [exec_eq_runOp_nokey hkg, runOp_ok_falsy hop hv]
    refine ⟨rfl, rfl, ?_⟩
    rcases hr2 : race op2 timerDelay with e2 | v2
    · rw [exec_eq_runOp_nokey hkg, runOp_nocache_err hkg hr2]
    · rw [exec_eq_runOp_nokey hkg, runOp_nocache_ok hkg hr2]
  · rw [exec_eq_runOp_miss hk (getFromCache_none hc), runOp_ok_falsy hop hv]
    refine ⟨rfl, rfl, ?_⟩
    rw [exec_eq_runOp_miss hk (getFromCache_none hc)]
    rcases hr2 : race op2 timerDelay with e2 | v2
    · rw [runOp_err_miss hr2 hc]
    · by_cases htv : truthy v2 = true
      · rw [runOp_ok_truthy hk hr2 htv]
      · rw [runOp_ok_falsy hr2 (by simpa using htv)]

/-- Witness for C4: a successful empty-string result at time 0 leaves the
cache empty and the next call at time 10 invokes its operation. -/
theorem C4_witness :
    (executeWithFallback emptyCache 0 ⟨0, Except.ok (JSValue.vstr "")⟩
      (some "empty") true).result = Except.ok (JSValue.vstr "") ∧
    (executeWithFallback emptyCache 0 ⟨0, Except.ok (JSValue.vstr "")⟩
      (some "empty") true).cache = emptyCache ∧
    (executeWithFallback ((executeWithFallback emptyCache 0
        ⟨0, Except.ok (JSValue.vstr "")⟩ (some "empty") true).cache)
      10 ⟨0, Except.ok (JSValue.vnum 3)⟩ (some "empty") true).invoked = true :=
  C4_falsy_results_never_cached emptyCache "empty" 0 10
    ⟨0, Except.ok (JSValue.vstr "")⟩ ⟨0, Except.ok (JSValue.vnum 3)⟩
    (JSValue.vstr "") (by decide) (by decide) (by decide)

lemma testConnection_ok {r : ProbeResponse} (h : probeOk r = true)
    (hist : List ConnectionAttempt) :
    testConnection hist r = .ok (recordAttempt hist true (probeLatency r) none) := by
  cases r with
  | throws e => cases h
  | respond err lat =>
    cases err with
    | none => rfl
    | some e =>
      have hin : jsIncludes e.message "No users" = true := h
      simp [testConnection, probeLatency, hin]

lemma testConnection_err {r : ProbeResponse} (h : probeOk r = false)
    (hist : List ConnectionAttempt) :
    testConnection hist r = .error (probeErr r) := by
  cases r with
  | throws e => rfl
  | respond err lat =>
    cases err with
    | none => cases h
    | some e =>
      have hin : jsIncludes e.message "No users" = false := h
      simp [testConnection, probeErr, hin]

lemma config_mem (cfg : Config) : cfg ∈ configurations := by
  cases cfg <;> simp [configurations]

/-- Claim C6.  When a remembered configuration exists and its probe succeeds,
getWorkingClient returns that client immediately and probes no other
configuration: the candidate list is never iterated. -/
theorem C6_remembered_config_short_circuits (st : ManagerState)
    (probeOf : Config → ProbeResponse) (cfg : Config)
    (h1 : st.lastSuccessfulConfig = some cfg)
    (h2 : probeOk (probeOf cfg) = true) :
    (getWorkingClient st probeOf).result = Except.ok cfg ∧
    (getWorkingClient st probeOf).probed = [cfg] := by
  simp [getWorkingClient, h1, testConnection_ok h2]

/-- Witness for C6 at a concrete state and probe environment. -/
theorem C6_witness :
    (getWorkingClient ⟨[], some Config.mediumKeepAlive⟩
      (fun _ => .respond none 12)).result = Except.ok Config.mediumKeepAlive ∧
    (getWorkingClient ⟨[], some Config.mediumKeepAlive⟩
      (fun _ => .respond none 12)).probed = [Config.mediumKeepAlive] :=
  C6_remembered_config_short_circuits ⟨[], some Config.mediumKeepAlive⟩
    (fun _ => .respond none 12) Config.mediumKeepAlive rfl (by decide)

lemma recordAttempt_length_le {hist : List ConnectionAttempt} (h : hist.length ≤ 10)
    (s : Bool) (lat : Nat) (err : Option String) :
    (recordAttempt hist s lat err).length ≤ 10 := by
  simp only [recordAttempt]
  split
  · simp
    omega
  · simp at *
    omega

/-- The failed ConnectionAttempt record the candidate loop appends when the
probe of a configuration fails. -/
def failRecord (probeOf : Config → ProbeResponse) (cfg : Config) : ConnectionAttempt :=
  ⟨false, 0, some (probeErr (probeOf cfg)).message⟩

/-- When every configuration in the remaining list fails its probe, the loop
throws the terminal error and the final history is the initial history with
exactly one failed record appended per candidate, capped at the last 10
records. -/
lemma tryLoop_all_fail (probeOf : Config → ProbeResponse) (cfgs : List Config) :
    ∀ (st : ManagerState) (acc : List Config),
    (∀ cfg ∈ cfgs, probeOk (probeOf cfg) = false) →
    st.connectionHistory.length ≤ 10 →
    (tryLoop probeOf cfgs st acc).result = Except.error ⟨exhaustedMessage⟩ ∧
    (tryLoop probeOf cfgs st acc).state.connectionHistory =
      List.drop (st.connectionHistory.length + cfgs.length - 10)
        (st.connectionHistory ++ cfgs.map (failRecord probeOf)) := by
  induction cfgs with
  | nil =>
    intro st acc _ hlen
    refine ⟨rfl, ?_⟩
    simp [tryLoop, Nat.sub_eq_zero_of_le hlen]
  | cons cfg rest ih =>
    intro st acc hf hlen
    have hfc : probeOk (probeOf cfg) = false := hf cfg (by simp)
    have hrest : ∀ c ∈ rest, probeOk (probeOf c) = false := by
      intro c hc
      exact hf c (by simp [hc])
    simp only [tryLoop, testConnection_err hfc]
    have hlen2 : (recordAttempt st.connectionHistory false 0
        (some (probeErr (probeOf cfg)).message)).length ≤ 10 :=
      recordAttempt_length_le hlen false 0 _
    obtain ⟨hres, hhist⟩ := ih
      ⟨recordAttempt st.connectionHistory false 0
        (some (probeErr (probeOf cfg)).message), st.lastSuccessfulConfig⟩
      (acc ++ [cfg]) hrest hlen2
    refine ⟨hres, ?_⟩
    rw [hhist]
    have hrec : recordAttempt st.connectionHistory false 0
        (some (probeErr (probeOf cfg)).message)
        = if (st.connectionHistory ++ [failRecord probeOf cfg]).length > 10
          then (st.connectionHistory ++ [failRecord probeOf cfg]).drop 1
          else st.connectionHistory ++ [failRecord probeOf cfg] := rfl
    rw [List.map_cons]
    by_cases hover : (st.connectionHistory ++ [failRecord probeOf cfg]).length > 10
    · rw [hrec, if_pos hover]
      have h1 : (1:ℕ) ≤ (st.connectionHistory ++ [failRecord probeOf cfg]).length := by
        simp only [List.length_append, List.length_cons, List.length_nil]
        omega
      have hlist : ((st.connectionHistory ++ [failRecord probeOf cfg]).drop 1)
          ++ rest.map (failRecord probeOf)
          = (st.connectionHistory ++ failRecord probeOf cfg ::
              rest.map (failRecord probeOf)).drop 1 :=
        calc ((st.connectionHistory ++ [failRecord probeOf cfg]).drop 1)
            ++ rest.map (failRecord probeOf)
            = ((st.connectionHistory ++ [failRecord probeOf cfg])
                ++ rest.map (failRecord probeOf)).drop 1 :=
              (List.drop_append_of_le_length h1).symm
          _ = (st.connectionHistory ++ failRecord probeOf cfg ::
                rest.map (failRecord probeOf)).drop 1 := by
              rw [List.append_assoc, List.singleton_append]
      rw [hlist, List.drop_drop]
      have hidx : 1 + (((st.connectionHistory ++ [failRecord probeOf cfg]).drop 1).length
          + rest.length - 10)
          = st.connectionHistory.length + (cfg :: rest).length - 10 := by
        simp only [List.length_drop, List.length_append, List.length_cons,
          List.length_nil] at hover ⊢
        omega
      rw [hidx]
    · rw [hrec, if_neg hover]
      rw [List.append_assoc, List.singleton_append]
      have hidx2 : (st.connectionHistory ++ [failRecord probeOf cfg]).length
          + rest.length - 10
          = st.connectionHistory.length + (cfg :: rest).length - 10 := by
        simp only [List.length_append, List.length_cons, List.length_nil]
        omega
      rw [hidx2]

/-- Claim C7.  When the probe fails for all candidate configurations of the
fixed ordered list, getWorkingClient throws the terminal exhaustion error (no
client is returned), and the candidate iteration appends exactly one failed
ConnectionAttempt per candidate: the final history is the starting history
followed by the 4 failure records, capped to the last 10 records.  The length
bound is the invariant recordAttempt maintains on every reachable history. -/
theorem C7_exhaustion_error_and_n_failures (st : ManagerState)
    (probeOf : Config → ProbeResponse)
    (hfail : ∀ cfg ∈ configurations, probeOk (probeOf cfg) = false)
    (hlen : st.connectionHistory.length ≤ 10) :
    (getWorkingClient st probeOf).result = Except.error ⟨exhaustedMessage⟩ ∧
    (getWorkingClient st probeOf).state.connectionHistory =
      List.drop (st.connectionHistory.length + configurations.length - 10)
        (st.connectionHistory ++ configurations.map (failRecord probeOf)) := by
  rcases hl : st.lastSuccessfulConfig with _ | cfg
  · simp only [getWorkingClient, hl]
    exact tryLoop_all_fail probeOf configurations st [] hfail hlen
  · have hcfg : probeOk (probeOf cfg) = false := hfail cfg (config_mem cfg)
    simp only [getWorkingClient, hl, testConnection_err hcfg]
    exact tryLoop_all_fail probeOf configurations st [cfg] hfail hlen

/-- Witness for C7: from an empty history, with every probe rejecting, the
call fails with the exhaustion error and the history holds exactly the four
failure records of the four candidates. -/
theorem C7_witness :
    (getWorkingClient ⟨[], none⟩
      (fun _ => .throws ⟨"ECONNREFUSED"⟩)).result
      = Except.error ⟨exhaustedMessage⟩ ∧
    (getWorkingClient ⟨[], none⟩
      (fun _ => .throws ⟨"ECONNREFUSED"⟩)).state.connectionHistory
      = [⟨false, 0, some "ECONNREFUSED"⟩, ⟨false, 0, some "ECONNREFUSED"⟩,
         ⟨false, 0, some "ECONNREFUSED"⟩, ⟨false, 0, some "ECONNREFUSED"⟩] := by
  have h := C7_exhaustion_error_and_n_failures ⟨[], none⟩
    (fun _ => .throws ⟨"ECONNREFUSED"⟩) (by decide) (by decide)
  refine ⟨h.1, ?_⟩
  rw [h.2]
  rfl

lemma tryLoop_indep (probeOf : Config → ProbeResponse) (cfgs : List Config) :
    ∀ (hist : List ConnectionAttempt) (l1 l2 : Option Config)
      (acc1 acc2 : List Config),
    (tryLoop probeOf cfgs ⟨hist, l1⟩ acc1).result
      = (tryLoop probeOf cfgs ⟨hist, l2⟩ acc2).result ∧
    (tryLoop probeOf cfgs ⟨hist, l1⟩ acc1).state.connectionHistory
      = (tryLoop probeOf cfgs ⟨hist, l2⟩ acc2).state.connectionHistory ∧
    ∃ tail, (tryLoop probeOf cfgs ⟨hist, l1⟩ acc1).probed = acc1 ++ tail ∧
      (tryLoop probeOf cfgs ⟨hist, l2⟩ acc2).probed = acc2 ++ tail := by
  induction cfgs with
  | nil =>
    intro hist l1 l2 acc1 acc2
    exact ⟨rfl, rfl, [], by simp [tryLoop], by simp [tryLoop]⟩
  | cons cfg rest ih =>
    intro hist l1 l2 acc1 acc2
    rcases ht : testConnection hist (probeOf cfg) with e | h2
    · simp only [tryLoop, ht]
      obtain ⟨hr, hh, tail, hp1, hp2⟩ := ih
        (recordAttempt hist false 0 (some e.message)) l1 l2
        (acc1 ++ [cfg]) (acc2 ++ [cfg])
      refine ⟨hr, hh, cfg :: tail, ?_, ?_⟩
      · rw [hp1, List.append_assoc, List.singleton_append]
      · rw [hp2, List.append_assoc, List.singleton_append]
    · refine ⟨?_, ?_, [cfg], ?_, ?_⟩ <;> simp [tryLoop, ht]

/-- Claim C10.  When a remembered configuration exists and its probe fails,
that failure appends no ConnectionAttempt: the call's result and final
history are exactly those of the same call run without a remembered
configuration (failure records come only from the candidate loop), and the
only extra probe is the remembered one. -/
theorem C10_remembered_failure_records_nothing (st : ManagerState)
    (probeOf : Config → ProbeResponse) (cfg : Config)
    (h1 : st.lastSuccessfulConfig = some cfg)
    (h2 : probeOk (probeOf cfg) = false) :
    (getWorkingClient st probeOf).result
      = (getWorkingClient ⟨st.connectionHistory, none⟩ probeOf).result ∧
    (getWorkingClient st probeOf).state.connectionHistory
      = (getWorkingClient ⟨st.connectionHistory, none⟩ probeOf).state.connectionHistory ∧
    (getWorkingClient st probeOf).probed
      = cfg :: (getWorkingClient ⟨st.connectionHistory, none⟩ probeOf).probed := by
  obtain ⟨hist, last⟩ := st
  simp only at h1
  subst h1
  simp only [getWorkingClient, testConnection_err h2]
  obtain ⟨hr, hh, tail, hp1, hp2⟩ :=
    tryLoop_indep probeOf configurations hist (some cfg) none [cfg] []
  refine ⟨hr, hh, ?_⟩
  rw [hp1, hp2, List.singleton_append, List.nil_append]

/-- Witness for C10: remembered configuration fails, fourth candidate
succeeds; the run matches the run without a remembered configuration. -/
theorem C10_witness :
    (getWorkingClient ⟨[], some Config.longBasic⟩
      (fun c => if c = Config.defaultCfg then .respond none 2
        else .throws ⟨"x"⟩)).result
      = (getWorkingClient ⟨[], none⟩
        (fun c => if c = Config.defaultCfg then .respond none 2
          else .throws ⟨"x"⟩)).result ∧
    (getWorkingClient ⟨[], some Config.longBasic⟩
      (fun c => if c = Config.defaultCfg then .respond none 2
        else .throws ⟨"x"⟩)).state.connectionHistory
      = (getWorkingClient ⟨[], none⟩
        (fun c => if c = Config.defaultCfg then .respond none 2
          else .throws ⟨"x"⟩)).state.connectionHistory ∧
    (getWorkingClient ⟨[], some Config.longBasic⟩
      (fun c => if c = Config.defaultCfg then .respond none 2
        else .throws ⟨"x"⟩)).probed
      = Config.longBasic :: (getWorkingClient ⟨[], none⟩
        (fun c => if c = Config.defaultCfg then .respond none 2
          else .throws ⟨"x"⟩)).probed :=
  C10_remembered_failure_records_nothing ⟨[], some Config.longBasic⟩
    (fun c => if c = Config.defaultCfg then .respond none 2
      else .throws ⟨"x"⟩) Config.longBasic rfl (by decide)
